import Mathlib

/-!
Verification of the sticky-session Twitter/X scraper
(`twitter_scraper_11.py`): a shallow embedding of the proxy queue, the
extraction engine (`_is_tweet_id`, `_find_user`, `_extract_tweets`,
`_extract_user_profile`), the session scrape loop, and the orchestrator's
merge phase (`TwitterScraper._parallel_scrape`), together with theorems
about the behaviour the specification describes.

Modelling conventions:
* JSON payloads are the inductive `J` (objects keep field order, as CPython
  dicts do; `get` returns the first binding of a key).
* CPython floats (speed hints, elapsed seconds) are modelled as rationals.
* On payloads where the CPython code would raise a `TypeError` or
  `AttributeError` (a type-confused field, e.g. a non-dict under
  `"legacy"`), the call site swallows the exception and the whole call
  yields no records; the embedding instead totalises such accesses with
  pythonic defaults, so every record the source can emit is also emitted
  by the model, and all universally quantified statements about emitted
  records transfer to the source.  Each totalised access is marked below.
-/

namespace XScraper

set_option linter.unnecessarySimpa false
set_option linter.unusedVariables false

deriving instance DecidableEq for Except

/-! ## Python string primitives

`str.strip`, `str.replace`, `str.isdigit` modelled on `List Char`.
Whitespace is modelled by `Char.isWhitespace` (space, tab, LF, CR). -/

/-- Characters removed by `str.strip()`. -/
def pySpace (c : Char) : Bool := c.isWhitespace

/-- `str.strip()`: drop leading and trailing whitespace. -/
def stripChars (l : List Char) : List Char :=
  ((l.dropWhile pySpace).reverse.dropWhile pySpace).reverse

/-- `str.strip()` on `String`. -/
def pyStrip (s : String) : String := ⟨stripChars s.data⟩

/-- Fuel-indexed body of `str.replace` (structural recursion on the fuel
so that the kernel can evaluate it; the scan consumes at least one
character per step, so `l.length` fuel always suffices). -/
def replaceFuel (pat rep : List Char) : Nat → List Char → List Char
  | _, [] => []
  | 0, l => l
  | fuel + 1, c :: rest =>
    if pat ≠ [] ∧ pat.isPrefixOf (c :: rest) then
      rep ++ replaceFuel pat rep fuel ((c :: rest).drop pat.length)
    else
      c :: replaceFuel pat rep fuel rest

/-- `str.replace(pat, rep)`: replace every (leftmost, non-overlapping)
occurrence of `pat` by `rep`.  `pat` is nonempty at every call site. -/
def replaceChars (pat rep l : List Char) : List Char :=
  replaceFuel pat rep l.length l

/-- `str.replace` on `String`. -/
def pyReplace (s : String) (pat rep : String) : String :=
  ⟨replaceChars pat.data rep.data s.data⟩

/-- `str.isdigit()`: nonempty and all digits (ASCII model). -/
def pyIsDigit (s : String) : Bool :=
  !s.data.isEmpty && s.data.all Char.isDigit

/-- `str.startswith(pre)` (the core `String.startsWith` works on byte
positions, which the kernel cannot evaluate). -/
def pyStartsWith (s pre : String) : Bool :=
  pre.data.isPrefixOf s.data

/-! ## JSON values

A mutual inductive so that the recursive payload walks are structural.
`JObj` is an ordered association list (CPython dict insertion order). -/

mutual
inductive J where
  | null : J
  | bool : Bool → J
  | num : Rat → J
  | str : String → J
  | arr : JArr → J
  | obj : JObj → J
  deriving DecidableEq
inductive JArr where
  | nil : JArr
  | cons : J → JArr → JArr
  deriving DecidableEq
inductive JObj where
  | nil : JObj
  | cons : String → J → JObj → JObj
  deriving DecidableEq
end

/-- First binding of key `k`, i.e. CPython `dict.get(k, d)`. -/
def jGetD (o : JObj) (k : String) (d : J) : J :=
  match o with
  | .nil => d
  | .cons k' v rest => if k' = k then v else jGetD rest k d

/-- CPython `k in dict`. -/
def hasKey (o : JObj) (k : String) : Bool :=
  match o with
  | .nil => false
  | .cons k' _ rest => k' = k || hasKey rest k

/-- CPython truthiness of a decoded JSON value. -/
def pyTruthy : J → Bool
  | .null => false
  | .bool b => b
  | .num n => n ≠ 0
  | .str s => s ≠ ""
  | .arr .nil => false
  | .arr (.cons _ _) => true
  | .obj .nil => false
  | .obj (.cons _ _ _) => true

/-- CPython `a or b` on values: `a` if truthy, else `b`. -/
def pyOr (a b : J) : J := if pyTruthy a then a else b

/-- `value is None`. -/
def J.isNull : J → Bool
  | .null => true
  | _ => false

/-- View a value as a dict; the source raises on a truthy non-dict here
(totalised, see header). -/
def J.asObj : J → JObj
  | .obj o => o
  | _ => .nil

/-- View a value as a string; the source raises on a truthy non-string
here (totalised, see header). -/
def J.asStr : J → String
  | .str s => s
  | _ => ""

/-- View a value as a list; the source raises on a non-list here
(totalised, see header). -/
def J.asArr : J → JArr
  | .arr a => a
  | _ => .nil

def JArr.toList : JArr → List J
  | .nil => []
  | .cons v rest => v :: JArr.toList rest

/-- Build a `JObj` literal from a list of bindings. -/
def jo (l : List (String × J)) : J :=
  .obj (l.foldr (fun kv rest => JObj.cons kv.1 kv.2 rest) .nil)

/-- Build a `JArr` literal from a list of values. -/
def ja (l : List J) : J :=
  .arr (l.foldr JArr.cons .nil)

/-- `dict.get(k, d)` after an `isinstance`-free access: the source raises
on a truthy non-dict receiver (totalised, see header). -/
def dgetD (j : J) (k : String) (d : J) : J :=
  match j with
  | .obj o => jGetD o k d
  | _ => d

/-- Numeric view used for CPython comparisons of JSON numbers
(`bool` is an `int` in CPython); other types would raise in a mixed
comparison (totalised, see header). -/
def J.asNum : J → Rat
  | .num n => n
  | .bool b => if b then 1 else 0
  | _ => 0

/-- CPython `str()` on the scalar values that reach the one f-string call
site (`screen_name`); container rendering never occurs there on
non-raising payloads. -/
def pyStrOf : J → String
  | .str s => s
  | .num n => toString n
  | .bool true => "True"
  | .bool false => "False"
  | .null => "None"
  | .arr _ => ""
  | .obj _ => ""

/-- Lexicographic string comparison by code point, as CPython compares
`str` values (the core `String.le` is not kernel-reducible, so we compare
the underlying character lists). -/
def pyStrLe (a b : String) : Bool := a.data ≤ b.data

/-! ## Tweet extractor (`_is_tweet_id`, `_find_user`, `_extract_tweets`) -/

/-- `_is_tweet_id`: only accept pure numeric IDs; rejects t.co URLs and
empty strings. -/
def is_tweet_id (value : String) : Bool :=
  if value = "" then false
  else if pyStartsWith value "http" then false
  else pyIsDigit value

mutual
/-- The depth-capped fallback search of `_find_user._deep_find`: first
sub-dict that has a truthy `screen_name` and `name` and no truthy
`full_text`.  (A returned dict is never empty, so the source's `if result:`
truthiness test coincides with `Option.isSome`.) -/
def deepFind (node : J) (depth : Nat) : Option JObj :=
  if depth > 6 then none
  else
    match node with
    | .obj o =>
      if pyTruthy (jGetD o "screen_name" .null) && pyTruthy (jGetD o "name" .null)
          && !pyTruthy (jGetD o "full_text" .null) then
        some o
      else deepFindObj o depth
    | .arr a => deepFindArr a depth
    | _ => none
def deepFindObj (o : JObj) (depth : Nat) : Option JObj :=
  match o with
  | .nil => none
  | .cons _ v rest =>
    match deepFind v (depth + 1) with
    | some r => some r
    | none => deepFindObj rest depth
def deepFindArr (a : JArr) (depth : Nat) : Option JObj :=
  match a with
  | .nil => none
  | .cons v rest =>
    match deepFind v (depth + 1) with
    | some r => some r
    | none => deepFindArr rest depth
end

/-- One of the five fixed author-nesting paths of `_find_user`:
a chain of `.get(key, {})` accesses. -/
def chainGet (start : J) (keys : List String) : J :=
  keys.foldl (fun j k => dgetD j k (.obj .nil)) start

/-- A `_find_user` candidate is usable if it is a dict with a truthy
`screen_name`. -/
def userCandOk : J → Bool
  | .obj u => pyTruthy (jGetD u "screen_name" .null)
  | _ => false

/-- `_find_user`: try the five known nesting paths in order, then fall
back to the depth-bounded deep search, else return `{}`. -/
def findUser (o : JObj) : JObj :=
  let candidates : List J :=
    [ chainGet (.obj o) ["core", "user_results", "result", "legacy"]
    , chainGet (.obj o) ["tweet", "core", "user_results", "result", "legacy"]
    , chainGet (.obj o) ["user_results", "result", "legacy"]
    , chainGet (.obj o) ["core", "user_results", "result", "core", "legacy"]
    , chainGet (.obj o) ["user", "legacy"] ]
  match candidates.find? userCandOk with
  | some (.obj u) => u
  | _ =>
    match deepFind (.obj o) 0 with
    | some u => u
    | none => .nil

/-- Classification of an accepted candidate (`_extract_tweets` lines
580-590): `is_retweet` if `legacy["retweeted_status_result"]` is present
and not `None`; `is_quote` from the node's own `quoted_status_result`;
`is_reply` from a truthy `legacy["in_reply_to_status_id_str"]`. -/
def tweetType (o leg : JObj) : String :=
  let is_retweet := !(jGetD leg "retweeted_status_result" .null).isNull
  let is_quote := !(jGetD o "quoted_status_result" .null).isNull
  let is_reply := pyTruthy (jGetD leg "in_reply_to_status_id_str" (.str ""))
  if is_retweet then "retweet"
  else if is_quote then "quote"
  else if is_reply then "reply"
  else "original"

/-- Decode the four basic HTML entities, exactly in the source's order. -/
def cleanText (text : String) : String :=
  pyReplace (pyReplace (pyReplace (pyReplace text "&amp;" "&") "&lt;" "<") "&gt;" ">") "&quot;" "\""

/-- A canonical post record.  Fields the source guarantees to be strings
are `String`; fields copied verbatim from the payload are raw `J`. -/
structure Tweet where
  id : String
  text : String
  created_at : J
  author : J
  author_name : J
  author_id : J
  author_followers : J
  author_following : J
  author_verified : J
  likes : J
  retweets : J
  replies : J
  quotes : J
  bookmarks : J
  views : J
  tweet_type : String
  lang : J
  reply_to_id : J
  reply_to_user : J
  hashtags : List J
  mentions : List J
  urls : List J
  media : List (J × J)
  url : String
  scraped_at : String
  deriving DecidableEq

/-- The record built for an accepted candidate (`_extract_tweets` lines
593-652).  `now` models the `datetime.now().isoformat()` call; `text` is
the already-stripped body text. -/
def buildTweet (now : String) (o leg : JObj) (rest_id text : String) : Tweet :=
  let user := findUser o
  let screen_name := jGetD user "screen_name" (.str "")
  let entities := (jGetD leg "entities" (.obj .nil)).asObj
  { id := rest_id
  , text := cleanText text
  , created_at := jGetD leg "created_at" (.str "")
  , author := screen_name
  , author_name := jGetD user "name" (.str "")
  , author_id := jGetD user "id_str" (.str "")
  , author_followers := jGetD user "followers_count" (.num 0)
  , author_following := jGetD user "friends_count" (.num 0)
  , author_verified := pyOr (jGetD user "verified" (.bool false)) (jGetD user "is_blue_verified" (.bool false))
  , likes := jGetD leg "favorite_count" (.num 0)
  , retweets := jGetD leg "retweet_count" (.num 0)
  , replies := jGetD leg "reply_count" (.num 0)
  , quotes := jGetD leg "quote_count" (.num 0)
  , bookmarks := jGetD leg "bookmark_count" (.num 0)
  , views := dgetD (jGetD o "views" (.obj .nil)) "count" (.num 0)
  , tweet_type := tweetType o leg
  , lang := jGetD leg "lang" (.str "")
  , reply_to_id := jGetD leg "in_reply_to_status_id_str" (.str "")
  , reply_to_user := jGetD leg "in_reply_to_screen_name" (.str "")
  , hashtags := ((jGetD entities "hashtags" (.arr .nil)).asArr.toList).map
      (fun h => dgetD h "text" .null)
  , mentions := ((jGetD entities "user_mentions" (.arr .nil)).asArr.toList).map
      (fun m => dgetD m "screen_name" (.str ""))
  , urls := ((jGetD entities "urls" (.arr .nil)).asArr.toList).filterMap
      (fun u =>
        let e := dgetD u "expanded_url" (.str "")
        if pyStartsWith (J.asStr e) "https://twitter.com/i/web" then none else some e)
  , media := ((jGetD entities "media" (.arr .nil)).asArr.toList).map
      (fun m => (dgetD m "type" (.str ""), dgetD m "media_url_https" (.str "")))
  , url :=
      if pyTruthy screen_name then
        "https://x.com/" ++ pyStrOf screen_name ++ "/status/" ++ rest_id
      else
        "https://x.com/i/status/" ++ rest_id
  , scraped_at := now }

/-- State of the `_extract_tweets` walk: the `tweets` list (in emission
order) and the `seen_ids` set (as a list). -/
abbrev ExtractSt := List Tweet × List String

/-- The stripped body text read by the candidate test at a dict node:
`legacy["full_text"]`, falling back to `legacy["text"]`, stripped. -/
def candidateText (o : JObj) : String :=
  let leg := (jGetD o "legacy" (.obj .nil)).asObj
  pyStrip (jGetD leg "full_text" (jGetD leg "text" (.str ""))).asStr

/-- The candidate test of the `_extract_tweets` walk at one dict node:
if the dict carries both `legacy` and `rest_id` keys, it is emitted only
if its id is a pure-numeric string, its stripped text is nonempty, and
the id is not in `seen_ids`; otherwise the state is unchanged (the
children are walked afterwards in every case).  A falsy non-string
`rest_id` is rejected by `_is_tweet_id`; a truthy non-string one makes
the source raise (totalised to rejection, see header). -/
def candidateStep (now : String) (o : JObj) (st : ExtractSt) : ExtractSt :=
  if hasKey o "legacy" && hasKey o "rest_id" then
    let rest_id := jGetD o "rest_id" (.str "")
    let leg := (jGetD o "legacy" (.obj .nil)).asObj
    let text := candidateText o
    match rest_id with
    | .str s =>
      if !is_tweet_id s || text = "" then st
      else if st.2.contains s then st
      else (st.1 ++ [buildTweet now o leg s text], s :: st.2)
    | _ => st
  else st

mutual
/-- The recursive walk of `_extract_tweets`: apply the candidate test at
each dict node, then walk the dict's values; walk every list element. -/
def walkJ (now : String) (node : J) (st : ExtractSt) : ExtractSt :=
  match node with
  | .obj o => walkObj now o (candidateStep now o st)
  | .arr a => walkArr now a st
  | _ => st
def walkObj (now : String) (o : JObj) (st : ExtractSt) : ExtractSt :=
  match o with
  | .nil => st
  | .cons _ v rest => walkObj now rest (walkJ now v st)
def walkArr (now : String) (a : JArr) (st : ExtractSt) : ExtractSt :=
  match a with
  | .nil => st
  | .cons v rest => walkArr now rest (walkJ now v st)
end

/-- `_extract_tweets`: walk the decoded payload and return the collected
tweets.  `now` models the wall clock read by `datetime.now()`. -/
def extractTweets (now : String) (data : J) : List Tweet :=
  (walkJ now data ([], [])).1

/-! ## Profile extractor (`_extract_user_profile`) -/

/-- A canonical profile record (`_extract_user_profile`). -/
structure Profile where
  username : J
  name : J
  id : J
  bio : J
  location : J
  url : J
  followers : J
  following : J
  tweet_count : J
  listed_count : J
  verified : J
  created_at : J
  profile_image : J
  profile_banner : J
  pinned_tweet_id : J
  scraped_at : String
  deriving DecidableEq

/-- The profile record built from a matching node. -/
def buildProfile (now : String) (o leg : JObj) : Profile :=
  { username := jGetD leg "screen_name" (.str "")
  , name := jGetD leg "name" (.str "")
  , id := jGetD o "rest_id" (.str "")
  , bio := jGetD leg "description" (.str "")
  , location := jGetD leg "location" (.str "")
  , url := jGetD leg "url" (.str "")
  , followers := jGetD leg "followers_count" (.num 0)
  , following := jGetD leg "friends_count" (.num 0)
  , tweet_count := jGetD leg "statuses_count" (.num 0)
  , listed_count := jGetD leg "listed_count" (.num 0)
  , verified := pyOr (jGetD leg "verified" (.bool false)) (jGetD o "is_blue_verified" (.bool false))
  , created_at := jGetD leg "created_at" (.str "")
  , profile_image := jGetD leg "profile_image_url_https" (.str "")
  , profile_banner := jGetD leg "profile_banner_url" (.str "")
  , pinned_tweet_id :=
      let p := jGetD leg "pinned_tweet_ids_str" .null
      if pyTruthy p then p.asArr.toList.headD .null else .str ""
  , scraped_at := now }

mutual
/-- `_extract_user_profile`: first node whose `legacy` dict has a truthy
`screen_name` and no truthy `full_text` (a non-dict `legacy` makes the
source raise; totalised to skipping the node, see header). -/
def profWalk (now : String) (node : J) : Option Profile :=
  match node with
  | .obj o =>
    let leg := (jGetD o "legacy" (.obj .nil)).asObj
    if pyTruthy (jGetD leg "screen_name" .null) && !pyTruthy (jGetD leg "full_text" .null) then
      some (buildProfile now o leg)
    else profWalkObj now o
  | .arr a => profWalkArr now a
  | _ => none
def profWalkObj (now : String) (o : JObj) : Option Profile :=
  match o with
  | .nil => none
  | .cons _ v rest =>
    match profWalk now v with
    | some p => some p
    | none => profWalkObj now rest
def profWalkArr (now : String) (a : JArr) : Option Profile :=
  match a with
  | .nil => none
  | .cons v rest =>
    match profWalk now v with
    | some p => some p
    | none => profWalkArr now rest
end

/-- `_extract_user_profile` entry point. -/
def extractUserProfile (now : String) (data : J) : Option Profile :=
  profWalk now data

/-! ## Proxy queue (`ProxyQueue`)

The queue holds endpoint URLs in FIFO order; `_stats` is a CPython dict
from URL to outcome fields, modelled as an insertion-ordered association
list.  Float fields (`speed`, `elapsed`) are modelled as rationals. -/

/-- Per-endpoint outcome statistics (`ProxyQueue._stats` values). -/
structure PStats where
  speed : Rat
  success : Bool
  tweets : Nat
  elapsed : Rat
  deriving DecidableEq

/-- One record of the persisted proxy list: `item.get("proxy", "")` and
`item.get("speed", 9.9)` are the only fields `_load` reads. -/
structure ProxyItem where
  proxy : Option String
  speed : Option Rat
  deriving DecidableEq

/-- The `ProxyQueue` state: FIFO queue, stats dict, `_total_loaded`. -/
structure PoolSt where
  q : List String
  stats : List (String × PStats)
  totalLoaded : Nat
  deriving DecidableEq

/-- CPython `dict[k] = v`: overwrite in place if present, else append. -/
def statsInsert (k : String) (v : PStats) : List (String × PStats) → List (String × PStats)
  | [] => [(k, v)]
  | (k', v') :: rest =>
    if k' = k then (k, v) :: rest else (k', v') :: statsInsert k v rest

/-- The body of `ProxyQueue._load`'s loop: skip an item whose proxy URL
is absent or empty, else enqueue it and create its stats record. -/
def loadStep (st : PoolSt) (item : ProxyItem) : PoolSt :=
  let url := item.proxy.getD ""
  if url ≠ "" then
    { st with
      q := st.q ++ [url]
      stats := statsInsert url ⟨item.speed.getD (99/10), false, 0, 0⟩ st.stats }
  else st

/-- `ProxyQueue._load` on an already-decoded list, followed by
`_total_loaded = q.qsize()`. -/
def loadPool (items : List ProxyItem) : PoolSt :=
  let st := items.foldl loadStep ⟨[], [], 0⟩
  { st with totalLoaded := st.q.length }

/-- `ProxyQueue.checkout`: `get_nowait`, i.e. pop the head or signal
empty with `none`, never blocking or retrying. -/
def checkout (st : PoolSt) : Option String × PoolSt :=
  match st.q with
  | [] => (none, st)
  | u :: rest => (some u, { st with q := rest })

/-- `ProxyQueue.record`: update the URL's stats fields if the URL is
known, else no-op.  The queue is not touched. -/
def record (st : PoolSt) (url : String) (success : Bool) (tweets : Nat) (elapsed : Rat) : PoolSt :=
  { st with
    stats := st.stats.map (fun kv =>
      if kv.1 = url then (kv.1, { kv.2 with success := success, tweets := tweets, elapsed := elapsed })
      else kv) }

/-- `ProxyQueue.remaining`. -/
def remaining (st : PoolSt) : Nat := st.q.length

/-- `ProxyQueue.total`. -/
def totalLoadedOf (st : PoolSt) : Nat := st.totalLoaded

/-- `ProxyQueue.summary`: sessions with recorded elapsed time, the
successful ones among them, and the raw tweet total. -/
def summary (st : PoolSt) : String :=
  let used := (st.stats.map Prod.snd).filter (fun s => 0 < s.elapsed)
  let success := used.filter (fun s => s.success)
  let tweets := (used.map (fun s => s.tweets)).sum
  toString st.totalLoaded ++ " proxies | " ++
    toString success.length ++ "/" ++ toString used.length ++ " sessions ok | " ++
    toString tweets ++ " raw tweets"

/-- An interaction with one pool instance: `checkout()` or
`record(url, success, tweets, elapsed)`. -/
inductive PoolOp where
  | checkout : PoolOp
  | record : String → Bool → Nat → Rat → PoolOp

/-- Run a sequence of pool operations, collecting every `checkout()`
result in order. -/
def runPool : List PoolOp → PoolSt → PoolSt × List (Option String)
  | [], st => (st, [])
  | .checkout :: ops, st =>
    ((runPool ops (checkout st).2).1, (checkout st).1 :: (runPool ops (checkout st).2).2)
  | .record u s n e :: ops, st => runPool ops (record st u s n e)

/-! ## Orchestrator merge phase (`TwitterScraper._parallel_scrape`)

The session buffers arrive in task-completion order; the merge loop
shares one `seen` set across all batches, so it is the loop below over
the concatenation of the batches. -/

/-- The merge loop of `_parallel_scrape` (lines 796-803): keep a tweet
iff its `id` is truthy (nonempty) and not seen before. -/
def mergeLoop (seen : List String) : List Tweet → List Tweet
  | [] => []
  | t :: rest =>
    if t.id ≠ "" && !seen.contains t.id then
      t :: mergeLoop (t.id :: seen) rest
    else
      mergeLoop seen rest

/-- Descending order on the `created_at` sort key
(`merged.sort(key=..., reverse=True)`); CPython raises on a mixed-type
key, so the key is read through the string view. -/
def createdDesc (a b : Tweet) : Prop :=
  pyStrLe b.created_at.asStr a.created_at.asStr

instance : DecidableRel createdDesc := fun a b => by
  unfold createdDesc; infer_instance

/-- The stable descending sort of the merge phase.  CPython's `list.sort`
is a stable sort; any two stable sorts for the same total preorder agree,
so it is modelled by the stable `List.insertionSort`. -/
def sortMerged (l : List Tweet) : List Tweet :=
  l.insertionSort createdDesc

/-- `max(all_profiles, key=followers)`: keep the first profile whose
follower count is maximal (CPython `max` replaces only on strictly
greater). -/
def bestProfile : List Profile → Option Profile
  | [] => none
  | p :: rest =>
    some (rest.foldl (fun best q =>
      if best.followers.asNum < q.followers.asNum then q else best) p)

/-- The result value of `_parallel_scrape`. -/
structure ScrapeResult where
  tweets : List Tweet
  profile : Option Profile
  deriving DecidableEq

/-- `_parallel_scrape` as a function of the pool state at entry, the
per-session buffers and profiles (in task-completion order; a failed
session contributes an empty buffer and no profile) and the caller's
`limit`.  `Except` makes the absence of a raised exception visible:
the empty-pool branch returns a normal empty result. -/
def parallelScrape (pq : PoolSt) (batches : List (List Tweet))
    (profiles : List Profile) (limit : Nat) : Except String ScrapeResult :=
  if remaining pq = 0 then
    .ok ⟨[], none⟩
  else
    let merged := mergeLoop [] batches.flatten
    .ok ⟨(sortMerged merged).take limit, bestProfile profiles⟩

/-- Whether an outcome is a raised exception rather than a return. -/
def raisedOutcome : Except String ScrapeResult → Bool
  | .ok _ => false
  | .error _ => true

/-! ## Session scrape loop (`StickySession.scrape`)

The environment captures what the outside world does during one call:
the values the shared `RATE_LIMITED` flag shows at each read, whether
navigation raises, and the interceptor-fed bucket contents after each
scroll step (`bucketAt 0` is the buffer at entry). -/

structure SessionEnv where
  /-- `RATE_LIMITED.is_set()` at entry (line 425). -/
  sig0 : Bool
  /-- `RATE_LIMITED.is_set()` after the stagger sleep (line 434). -/
  sig1 : Bool
  /-- `RATE_LIMITED.is_set()` at the top of scroll step `n` (line 447,
  `n` counted from 1). -/
  sigScroll : Nat → Bool
  /-- whether `page.goto` raises (timeout); the outer handler catches it
  and the session returns its current buffer. -/
  navRaises : Bool
  /-- buffer contents after `n` completed scroll steps. -/
  bucketAt : Nat → List Tweet
  /-- the session's captured profile. -/
  profile : Option Profile

/-- What one `scrape(target_url)` call did. -/
structure ScrapeTrace where
  tweets : List Tweet
  profile : Option Profile
  navigated : Bool
  steps : Nat
  deriving DecidableEq

/-- The scroll loop (lines 446-457): at the top of each step check the
rate-limit signal; after scrolling stop early once the buffer reaches
`target`.  Returns the number of executed steps, starting from `done`
already executed with `fuel` steps left in the `range`. -/
def scrollLoop (env : SessionEnv) (target : Nat) : Nat → Nat → Nat
  | done, 0 => done
  | done, fuel + 1 =>
    if env.sigScroll (done + 1) then done
    else if target ≤ (env.bucketAt (done + 1)).length then done + 1
    else scrollLoop env target (done + 1) fuel

/-- `StickySession.scrape`: the two early returns on the rate-limit
signal, the navigation (whose failure is caught), and the scroll loop.
The returned buffer is the one observed after the executed steps. -/
def sessionScrape (env : SessionEnv) (cap target : Nat) : ScrapeTrace :=
  if env.sig0 then ⟨env.bucketAt 0, env.profile, false, 0⟩
  else if env.sig1 then ⟨env.bucketAt 0, env.profile, false, 0⟩
  else if env.navRaises then ⟨env.bucketAt 0, env.profile, true, 0⟩
  else
    let s := scrollLoop env target 0 cap
    ⟨env.bucketAt s, env.profile, true, s⟩

/-! ## String lemmas

A stripped-nonempty string keeps a non-whitespace character through the
four HTML-entity replacements, so the emitted text is still nonempty
after trimming. -/

theorem exists_mem_dropWhile {p : Char → Bool} {l : List Char}
    (h : ∃ c ∈ l, ¬p c) : ∃ c ∈ l.dropWhile p, ¬p c := by
  induction l with
  | nil => simpa using h
  | cons a rest ih =>
    by_cases ha : p a
    · rw [List.dropWhile_cons_of_pos ha]
      rcases h with ⟨c, hc, hnp⟩
      rcases List.mem_cons.mp hc with rfl | hc'
      · exact absurd ha hnp
      · exact ih ⟨c, hc', hnp⟩
    · rw [List.dropWhile_cons_of_neg ha]
      exact ⟨a, List.mem_cons_self a rest, ha⟩

theorem exists_mem_of_dropWhile_ne_nil {p : Char → Bool} {l : List Char}
    (h : l.dropWhile p ≠ []) : ∃ c ∈ l.dropWhile p, ¬p c := by
  induction l with
  | nil => simp at h
  | cons a rest ih =>
    by_cases ha : p a
    · rw [List.dropWhile_cons_of_pos ha] at h ⊢
      exact ih h
    · rw [List.dropWhile_cons_of_neg ha]
      exact ⟨a, List.mem_cons_self a rest, ha⟩

/-- A nonempty strip result contains a non-whitespace character. -/
theorem exists_nonspace_of_stripChars_ne_nil {l : List Char}
    (h : stripChars l ≠ []) : ∃ c ∈ stripChars l, ¬pySpace c := by
  unfold stripChars at *
  have h2 : ((l.dropWhile pySpace).reverse.dropWhile pySpace) ≠ [] := by
    intro hc; exact h (by rw [hc]; rfl)
  rcases exists_mem_of_dropWhile_ne_nil h2 with ⟨c, hc, hnp⟩
  exact ⟨c, List.mem_reverse.mpr hc, hnp⟩

/-- A list with a non-whitespace character strips to a nonempty list. -/
theorem stripChars_ne_nil_of_exists_nonspace {l : List Char}
    (h : ∃ c ∈ l, ¬pySpace c) : stripChars l ≠ [] := by
  unfold stripChars
  rcases exists_mem_dropWhile h with ⟨c, hc, hnp⟩
  rcases exists_mem_dropWhile ⟨c, List.mem_reverse.mpr hc, hnp⟩ with ⟨d, hd, _⟩
  intro hnil
  rw [List.reverse_eq_nil_iff] at hnil
  rw [hnil] at hd
  exact absurd hd (List.not_mem_nil d)

/-- Replacement with a replacement string containing a non-whitespace
character preserves the existence of a non-whitespace character. -/
theorem exists_nonspace_replaceFuel (pat rep : List Char)
    (hrep : ∃ c ∈ rep, ¬pySpace c) :
    ∀ (fuel : Nat) (l : List Char), (∃ c ∈ l, ¬pySpace c) →
      ∃ c ∈ replaceFuel pat rep fuel l, ¬pySpace c := by
  intro fuel
  induction fuel with
  | zero =>
    intro l h
    cases l with
    | nil => simpa using h
    | cons a rest => simpa [replaceFuel] using h
  | succ n ih =>
    intro l h
    cases l with
    | nil => simpa using h
    | cons a rest =>
      rw [replaceFuel]
      by_cases hm : pat ≠ [] ∧ pat.isPrefixOf (a :: rest)
      · rw [if_pos hm]
        rcases hrep with ⟨c, hc, hnp⟩
        exact ⟨c, List.mem_append_left _ hc, hnp⟩
      · rw [if_neg hm]
        by_cases ha : pySpace a
        · rcases h with ⟨c, hc, hnp⟩
          rcases List.mem_cons.mp hc with rfl | hc'
          · exact absurd ha hnp
          · rcases ih rest ⟨c, hc', hnp⟩ with ⟨d, hd, hdnp⟩
            exact ⟨d, List.mem_cons_of_mem a hd, hdnp⟩
        · exact ⟨a, List.mem_cons_self _ _, ha⟩

theorem exists_nonspace_replaceChars (pat rep l : List Char)
    (hrep : ∃ c ∈ rep, ¬pySpace c) (h : ∃ c ∈ l, ¬pySpace c) :
    ∃ c ∈ replaceChars pat rep l, ¬pySpace c :=
  exists_nonspace_replaceFuel pat rep hrep l.length l h

/-- A string whose strip is nonempty still strips to nonempty after the
four HTML-entity replacements of `cleanText`. -/
theorem pyStrip_cleanText_ne_empty {s : String} (hs : pyStrip s ≠ "") :
    pyStrip (cleanText (pyStrip s)) ≠ "" := by
  have hdata : (pyStrip s).data = stripChars s.data := rfl
  have hne : stripChars s.data ≠ [] := by
    intro hc
    apply hs
    show (⟨stripChars s.data⟩ : String) = ⟨[]⟩
    rw [hc]
  have h0 : ∃ c ∈ (pyStrip s).data, ¬pySpace c := by
    rw [hdata]; exact exists_nonspace_of_stripChars_ne_nil hne
  have h1 := exists_nonspace_replaceChars "&amp;".data "&".data _ ⟨'&', by decide, by decide⟩ h0
  have h2 := exists_nonspace_replaceChars "&lt;".data "<".data _ ⟨'<', by decide, by decide⟩ h1
  have h3 := exists_nonspace_replaceChars "&gt;".data ">".data _ ⟨'>', by decide, by decide⟩ h2
  have h4 := exists_nonspace_replaceChars "&quot;".data "\"".data _ ⟨'"', by decide, by decide⟩ h3
  have h5 : stripChars (cleanText (pyStrip s)).data ≠ [] :=
    stripChars_ne_nil_of_exists_nonspace h4
  intro hc
  apply h5
  have : (pyStrip (cleanText (pyStrip s))).data = stripChars (cleanText (pyStrip s)).data := rfl
  rw [hc] at this
  exact this.symm

/-! ## C1 infrastructure: every emitted post is well-formed -/

/-- The well-formedness the specification promises of every emitted
post: a nonempty pure-numeric identifier and a body text that is still
nonempty after trimming. -/
def goodPost (t : Tweet) : Prop :=
  t.id ≠ "" ∧ t.id.data.all Char.isDigit ∧ pyStrip t.text ≠ ""

theorem is_tweet_id_props {s : String} (h : is_tweet_id s = true) :
    s ≠ "" ∧ s.data.all Char.isDigit := by
  unfold is_tweet_id at h
  by_cases h0 : s = ""
  · rw [if_pos h0] at h; exact absurd h (by simp)
  · rw [if_neg h0] at h
    by_cases h1 : pyStartsWith s "http" = true
    · rw [if_pos h1] at h; exact absurd h (by simp)
    · rw [if_neg h1] at h
      unfold pyIsDigit at h
      exact ⟨h0, (Bool.and_eq_true _ _ |>.mp h).2⟩

theorem goodPost_buildTweet (now : String) (o leg : JObj) (s : String)
    (hid : is_tweet_id s = true) (htext : candidateText o ≠ "") :
    goodPost (buildTweet now o leg s (candidateText o)) := by
  rcases is_tweet_id_props hid with ⟨h1, h2⟩
  refine ⟨h1, h2, ?_⟩
  show pyStrip (cleanText (candidateText o)) ≠ ""
  have hct : candidateText o = pyStrip ((jGetD ((jGetD o "legacy" (.obj .nil)).asObj) "full_text"
      (jGetD ((jGetD o "legacy" (.obj .nil)).asObj) "text" (.str ""))).asStr) := rfl
  rw [hct] at htext ⊢
  exact pyStrip_cleanText_ne_empty htext

/-- The candidate test only ever appends a well-formed post. -/
theorem candidateStep_sound (now : String) (o : JObj) (st : ExtractSt) :
    ∀ t ∈ (candidateStep now o st).1, t ∈ st.1 ∨ goodPost t := by
  unfold candidateStep
  by_cases hk : (hasKey o "legacy" && hasKey o "rest_id") = true
  · rw [if_pos hk]
    cases hrid : jGetD o "rest_id" (.str "") with
    | str s =>
      simp only
      by_cases hrej : (!is_tweet_id s || decide (candidateText o = "")) = true
      · rw [if_pos hrej]; exact fun t ht => Or.inl ht
      · rw [if_neg hrej]
        by_cases hseen : st.2.contains s = true
        · rw [if_pos hseen]; exact fun t ht => Or.inl ht
        · rw [if_neg hseen]
          intro t ht
          rcases List.mem_append.mp ht with h | h
          · exact Or.inl h
          · rcases List.mem_singleton.mp h with rfl
            simp only [Bool.or_eq_true, not_or, Bool.not_eq_true', Bool.not_eq_false,
              decide_eq_true_eq] at hrej
            rcases hrej with ⟨hid, htext⟩
            right
            exact goodPost_buildTweet now o _ s hid htext
    | null => exact fun t ht => Or.inl ht
    | bool b => exact fun t ht => Or.inl ht
    | num n => exact fun t ht => Or.inl ht
    | arr a => exact fun t ht => Or.inl ht
    | obj oo => exact fun t ht => Or.inl ht
  · rw [if_neg hk]; exact fun t ht => Or.inl ht

mutual
/-- Every tweet in the state after walking a node was already there or
is well-formed. -/
theorem walkJ_sound (now : String) (node : J) (st : ExtractSt) :
    ∀ t ∈ (walkJ now node st).1, t ∈ st.1 ∨ goodPost t :=
  match node with
  | .obj o => fun t ht =>
    match walkObj_sound now o (candidateStep now o st) t ht with
    | .inl h => candidateStep_sound now o st t h
    | .inr h => Or.inr h
  | .arr a => fun t ht => walkArr_sound now a st t ht
  | .null => fun t ht => Or.inl ht
  | .bool _ => fun t ht => Or.inl ht
  | .num _ => fun t ht => Or.inl ht
  | .str _ => fun t ht => Or.inl ht
theorem walkObj_sound (now : String) (o : JObj) (st : ExtractSt) :
    ∀ t ∈ (walkObj now o st).1, t ∈ st.1 ∨ goodPost t :=
  match o with
  | .nil => fun t ht => Or.inl ht
  | .cons _ v rest => fun t ht =>
    match walkObj_sound now rest (walkJ now v st) t ht with
    | .inl h => walkJ_sound now v st t h
    | .inr h => Or.inr h
theorem walkArr_sound (now : String) (a : JArr) (st : ExtractSt) :
    ∀ t ∈ (walkArr now a st).1, t ∈ st.1 ∨ goodPost t :=
  match a with
  | .nil => fun t ht => Or.inl ht
  | .cons v rest => fun t ht =>
    match walkArr_sound now rest (walkJ now v st) t ht with
    | .inl h => walkJ_sound now v st t h
    | .inr h => Or.inr h
end

/-- C1.  For every decoded JSON payload, every post record emitted by
post extraction has an identifier that is a non-empty pure-numeric
string and a body text that is non-empty after trimming; a candidate
node whose identifier is non-numeric (e.g. starts with "http") or whose
text is empty is never emitted (ghost records are discarded). -/
theorem extractTweets_wellformed (now : String) (data : J) :
    ∀ t ∈ extractTweets now data, goodPost t := by
  intro t ht
  rcases walkJ_sound now data ([], []) t ht with h | h
  · exact absurd h (List.not_mem_nil t)
  · exact h

/-- A concrete small payload with one valid post node. -/
def c1Payload : J :=
  jo [("rest_id", .str "7"), ("legacy", jo [("full_text", .str "hi")])]

/-- A blank record used as a `headD` default. -/
def blankTweet : Tweet := buildTweet "" .nil .nil "" ""

/-- Witness for C1 at a concrete payload. -/
theorem extractTweets_wellformed_witness :
    goodPost ((extractTweets "2024-05-01T00:00:00" c1Payload).headD blankTweet) :=
  extractTweets_wellformed "2024-05-01T00:00:00" c1Payload _ (by decide)

/-! ## C2 infrastructure: rejection and deduplication never stop the walk -/

/-- A candidate dict node that the walk refuses to emit against the seen
set `seen`: it has both keys but a non-numeric identifier, an empty
stripped text, or an already-seen identifier (a non-string `rest_id` is
likewise never emitted). -/
def rejectedOrDup (o : JObj) (seen : List String) : Bool :=
  (hasKey o "legacy" && hasKey o "rest_id") &&
    (match jGetD o "rest_id" (.str "") with
     | .str s => !is_tweet_id s || decide (candidateText o = "") || seen.contains s
     | _ => true)

/-- A refused candidate leaves the walk state untouched. -/
theorem candidateStep_of_rejected (now : String) (o : JObj) (st : ExtractSt)
    (h : rejectedOrDup o st.2 = true) : candidateStep now o st = st := by
  unfold rejectedOrDup at h
  rw [Bool.and_eq_true] at h
  rcases h with ⟨hk, hbr⟩
  unfold candidateStep
  rw [if_pos hk]
  cases hrid : jGetD o "rest_id" (.str "") with
  | str s =>
    rw [hrid] at hbr
    show (if (!is_tweet_id s || decide (candidateText o = "")) = true then st
          else if st.2.contains s = true then st
          else (st.1 ++ [buildTweet now o ((jGetD o "legacy" (.obj .nil)).asObj) s (candidateText o)],
                s :: st.2)) = st
    by_cases hfst : (!is_tweet_id s || decide (candidateText o = "")) = true
    · rw [if_pos hfst]
    · rw [if_neg hfst]
      have hseen : st.2.contains s = true := by
        rw [Bool.or_eq_true, Bool.or_eq_true] at hbr
        rcases hbr with (h1 | h2) | h3
        · exact absurd ((Bool.or_eq_true _ _).mpr (Or.inl h1)) hfst
        · exact absurd ((Bool.or_eq_true _ _).mpr (Or.inr h2)) hfst
        · exact h3
      rw [if_pos hseen]
  | null => rfl
  | bool b => rfl
  | num n => rfl
  | arr a => rfl
  | obj oo => rfl

/-- The invariant tying the emitted list to the seen set. -/
def seenInv (st : ExtractSt) : Prop :=
  (st.1.map Tweet.id).Nodup ∧ ∀ t ∈ st.1, t.id ∈ st.2

theorem candidateStep_inv (now : String) (o : JObj) (st : ExtractSt)
    (h : seenInv st) : seenInv (candidateStep now o st) := by
  rcases h with ⟨h1, h2⟩
  unfold candidateStep
  by_cases hk : (hasKey o "legacy" && hasKey o "rest_id") = true
  · rw [if_pos hk]
    cases hrid : jGetD o "rest_id" (.str "") with
    | str s =>
      simp only
      by_cases hfst : (!is_tweet_id s || candidateText o = "") = true
      · rw [if_pos hfst]; exact ⟨h1, h2⟩
      · rw [if_neg hfst]
        by_cases hseen : st.2.contains s = true
        · rw [if_pos hseen]; exact ⟨h1, h2⟩
        · rw [if_neg hseen]
          have hsnot : s ∉ st.1.map Tweet.id := by
            intro hmem
            rcases List.mem_map.mp hmem with ⟨t, htmem, hts⟩
            have hts2 := h2 t htmem
            rw [hts] at hts2
            exact hseen (List.elem_iff.mpr hts2)
          constructor
          · show ((st.1 ++ [buildTweet now o _ s (candidateText o)]).map Tweet.id).Nodup
            rw [List.map_append]
            rw [List.nodup_append]
            refine ⟨h1, List.nodup_singleton _, ?_⟩
            intro x hx hx2
            rcases List.mem_singleton.mp hx2 with rfl
            exact hsnot hx
          · intro t ht
            rcases List.mem_append.mp ht with hmem | hmem
            · exact List.mem_cons_of_mem s (h2 t hmem)
            · rcases List.mem_singleton.mp hmem with rfl
              exact List.mem_cons_self s st.2
    | null => exact ⟨h1, h2⟩
    | bool b => exact ⟨h1, h2⟩
    | num n => exact ⟨h1, h2⟩
    | arr a => exact ⟨h1, h2⟩
    | obj oo => exact ⟨h1, h2⟩
  · rw [if_neg hk]; exact ⟨h1, h2⟩

mutual
theorem walkJ_inv (now : String) (node : J) (st : ExtractSt)
    (h : seenInv st) : seenInv (walkJ now node st) :=
  match node with
  | .obj o => walkObj_inv now o (candidateStep now o st) (candidateStep_inv now o st h)
  | .arr a => walkArr_inv now a st h
  | .null => h
  | .bool _ => h
  | .num _ => h
  | .str _ => h
theorem walkObj_inv (now : String) (o : JObj) (st : ExtractSt)
    (h : seenInv st) : seenInv (walkObj now o st) :=
  match o with
  | .nil => h
  | .cons _ v rest => walkObj_inv now rest (walkJ now v st) (walkJ_inv now v st h)
theorem walkArr_inv (now : String) (a : JArr) (st : ExtractSt)
    (h : seenInv st) : seenInv (walkArr now a st) :=
  match a with
  | .nil => h
  | .cons v rest => walkArr_inv now rest (walkJ now v st) (walkJ_inv now v st h)
end

/-- A payload with a valid post followed by a duplicate-id wrapper that
nests a second valid post. -/
def c2Payload : J :=
  ja [ jo [("rest_id", .str "7"), ("legacy", jo [("full_text", .str "first")])]
     , jo [("rest_id", .str "7"), ("legacy", jo [("full_text", .str "dup wrapper")]),
           ("nested", jo [("rest_id", .str "8"), ("legacy", jo [("full_text", .str "nested")])])] ]

/-- C2.  For every payload in which a valid post node is nested inside a
candidate node that is itself rejected (non-numeric identifier or empty
text) or whose identifier was already accepted earlier in the same
extraction call, the walk still descends into that node's children and
emits the nested valid post (a refused candidate leaves the state
untouched and its values are then walked exactly as at top level);
within a single extraction call at most one record is emitted per
identifier.  The concrete payload has a duplicate-id wrapper whose
nested post is still emitted. -/
theorem extractTweets_reject_walks_children :
    (∀ (now : String) (o : JObj) (st : ExtractSt), rejectedOrDup o st.2 = true →
        walkJ now (.obj o) st = walkObj now o st)
    ∧ (∀ (now : String) (data : J), ((extractTweets now data).map Tweet.id).Nodup)
    ∧ (extractTweets "2024-05-01T00:00:00" c2Payload).map Tweet.id = ["7", "8"] := by
  refine ⟨?_, ?_, ?_⟩
  · intro now o st h
    show walkObj now o (candidateStep now o st) = walkObj now o st
    rw [candidateStep_of_rejected now o st h]
  · intro now data
    exact (walkJ_inv now data ([], []) ⟨List.nodup_nil, by intro t ht; exact absurd ht (List.not_mem_nil t)⟩).1
  · decide

/-- Witness for C2's universally quantified part at a concrete rejected
wrapper (ghost id) and nonempty state. -/
theorem extractTweets_reject_walks_children_witness :
    walkJ "T" (.obj (JObj.cons "rest_id" (.str "http://t.co/x")
        (JObj.cons "legacy" (jo [("full_text", .str "ghost")]) .nil))) ([], ["5"])
      = walkObj "T" (JObj.cons "rest_id" (.str "http://t.co/x")
        (JObj.cons "legacy" (jo [("full_text", .str "ghost")]) .nil)) ([], ["5"]) :=
  extractTweets_reject_walks_children.1 "T" _ ([], ["5"]) (by decide)

/-! ## C4: classification priority -/

/-- A candidate carrying both a retweeted-status reference and an
in-reply-to identifier (the tie-break case). -/
def c4Payload : J :=
  jo [("rest_id", .str "9"),
      ("legacy", jo [("full_text", .str "rt body"),
                     ("retweeted_status_result", jo [("result", .null)]),
                     ("in_reply_to_status_id_str", .str "123")])]

/-- C4.  For every accepted candidate post, the classification tag is
repost (`"retweet"`) if a retweeted-status reference is present, else
quote if a quoted-status reference is present, else reply if an
in-reply-to identifier is present, else original; in particular a
candidate carrying both a retweeted-status reference and an in-reply-to
identifier is classified as repost, not reply. -/
theorem tweetType_priority :
    (∀ (now : String) (o leg : JObj) (s text : String),
        (buildTweet now o leg s text).tweet_type = tweetType o leg)
    ∧ (∀ o leg : JObj, (jGetD leg "retweeted_status_result" .null).isNull = false →
        tweetType o leg = "retweet")
    ∧ (∀ o leg : JObj, (jGetD leg "retweeted_status_result" .null).isNull = true →
        (jGetD o "quoted_status_result" .null).isNull = false →
        tweetType o leg = "quote")
    ∧ (∀ o leg : JObj, (jGetD leg "retweeted_status_result" .null).isNull = true →
        (jGetD o "quoted_status_result" .null).isNull = true →
        pyTruthy (jGetD leg "in_reply_to_status_id_str" (.str "")) = true →
        tweetType o leg = "reply")
    ∧ (∀ o leg : JObj, (jGetD leg "retweeted_status_result" .null).isNull = true →
        (jGetD o "quoted_status_result" .null).isNull = true →
        pyTruthy (jGetD leg "in_reply_to_status_id_str" (.str "")) = false →
        tweetType o leg = "original")
    ∧ (extractTweets "2024-05-01T00:00:00" c4Payload).map Tweet.tweet_type = ["retweet"] := by
  refine ⟨fun now o leg s text => rfl, ?_, ?_, ?_, ?_, by decide⟩
  · intro o leg h
    unfold tweetType
    simp [h]
  · intro o leg h1 h2
    unfold tweetType
    simp [h1, h2]
  · intro o leg h1 h2 h3
    unfold tweetType
    simp [h1, h2, h3]
  · intro o leg h1 h2 h3
    unfold tweetType
    simp [h1, h2, h3]

/-- Witness for C4 (the reply branch at a concrete candidate). -/
theorem tweetType_priority_witness :
    tweetType (JObj.cons "x" .null .nil)
        (JObj.cons "in_reply_to_status_id_str" (.str "42") .nil) = "reply" :=
  tweetType_priority.2.2.2.1 _ _ (by decide) (by decide) (by decide)

/-! ## C9: extraction is pure up to the capture timestamp

Every field of an extracted record except `scraped_at` is a function of
the decoded payload alone; `scraped_at` records the wall clock of the
call (`datetime.now().isoformat()`), so two calls at different times
yield records that differ exactly there. -/

/-- Erase the capture timestamp of a post record. -/
def stripCapture (t : Tweet) : Tweet := { t with scraped_at := "" }

/-- Erase the capture timestamp of a profile record. -/
def stripCaptureP (p : Profile) : Profile := { p with scraped_at := "" }

theorem stripCapture_buildTweet (n₁ n₂ : String) (o leg : JObj) (s text : String) :
    stripCapture (buildTweet n₁ o leg s text) = stripCapture (buildTweet n₂ o leg s text) := rfl

/-- The state relation of the clock-independence proof. -/
def clockRel (st st' : ExtractSt) : Prop :=
  st.1.map stripCapture = st'.1.map stripCapture ∧ st.2 = st'.2

/-- The emission decision of the candidate test depends only on the node
and the seen set: `some s` when an id `s` is accepted, `none` when the
state is left untouched. -/
def candidateDecision (o : JObj) (seen : List String) : Option String :=
  if hasKey o "legacy" && hasKey o "rest_id" then
    match jGetD o "rest_id" (.str "") with
    | .str s =>
      if !is_tweet_id s || decide (candidateText o = "") then none
      else if seen.contains s then none
      else some s
    | _ => none
  else none

theorem candidateStep_eq (now : String) (o : JObj) (st : ExtractSt) :
    candidateStep now o st =
      match candidateDecision o st.2 with
      | none => st
      | some s =>
        (st.1 ++ [buildTweet now o ((jGetD o "legacy" (.obj .nil)).asObj) s (candidateText o)],
         s :: st.2) := by
  unfold candidateStep candidateDecision
  by_cases hk : (hasKey o "legacy" && hasKey o "rest_id") = true
  · rw [if_pos hk, if_pos hk]
    cases jGetD o "rest_id" (.str "") with
    | str s =>
      show (if (!is_tweet_id s || decide (candidateText o = "")) = true then st
            else if st.2.contains s = true then st
            else (st.1 ++ [buildTweet now o ((jGetD o "legacy" (.obj .nil)).asObj) s (candidateText o)],
                  s :: st.2))
          = match (if (!is_tweet_id s || decide (candidateText o = "")) = true then none
                   else if st.2.contains s = true then none else some s : Option String) with
            | none => st
            | some s =>
              (st.1 ++ [buildTweet now o ((jGetD o "legacy" (.obj .nil)).asObj) s (candidateText o)],
               s :: st.2)
      by_cases hfst : (!is_tweet_id s || decide (candidateText o = "")) = true
      · rw [if_pos hfst, if_pos hfst]
      · rw [if_neg hfst, if_neg hfst]
        by_cases hseen : st.2.contains s = true
        · rw [if_pos hseen, if_pos hseen]
        · rw [if_neg hseen, if_neg hseen]
    | null => rfl
    | bool b => rfl
    | num n => rfl
    | arr a => rfl
    | obj oo => rfl
  · rw [if_neg hk, if_neg hk]

theorem candidateStep_clockRel (n₁ n₂ : String) (o : JObj) (st st' : ExtractSt)
    (h : clockRel st st') : clockRel (candidateStep n₁ o st) (candidateStep n₂ o st') := by
  rcases h with ⟨h1, h2⟩
  rw [candidateStep_eq n₁ o st, candidateStep_eq n₂ o st', h2]
  cases candidateDecision o st'.2 with
  | none => exact ⟨h1, h2⟩
  | some s =>
    refine ⟨?_, rfl⟩
    show (st.1 ++ [buildTweet n₁ o _ s (candidateText o)]).map stripCapture
        = (st'.1 ++ [buildTweet n₂ o _ s (candidateText o)]).map stripCapture
    rw [List.map_append, List.map_append, h1]
    congr 1

mutual
theorem walkJ_clockRel (n₁ n₂ : String) (node : J) (st st' : ExtractSt)
    (h : clockRel st st') : clockRel (walkJ n₁ node st) (walkJ n₂ node st') :=
  match node with
  | .obj o => walkObj_clockRel n₁ n₂ o _ _ (candidateStep_clockRel n₁ n₂ o st st' h)
  | .arr a => walkArr_clockRel n₁ n₂ a st st' h
  | .null => h
  | .bool _ => h
  | .num _ => h
  | .str _ => h
theorem walkObj_clockRel (n₁ n₂ : String) (o : JObj) (st st' : ExtractSt)
    (h : clockRel st st') : clockRel (walkObj n₁ o st) (walkObj n₂ o st') :=
  match o with
  | .nil => h
  | .cons _ v rest =>
    walkObj_clockRel n₁ n₂ rest _ _ (walkJ_clockRel n₁ n₂ v st st' h)
theorem walkArr_clockRel (n₁ n₂ : String) (a : JArr) (st st' : ExtractSt)
    (h : clockRel st st') : clockRel (walkArr n₁ a st) (walkArr n₂ a st') :=
  match a with
  | .nil => h
  | .cons v rest =>
    walkArr_clockRel n₁ n₂ rest _ _ (walkJ_clockRel n₁ n₂ v st st' h)
end

theorem stripCaptureP_buildProfile (n₁ n₂ : String) (o leg : JObj) :
    stripCaptureP (buildProfile n₁ o leg) = stripCaptureP (buildProfile n₂ o leg) := rfl

mutual
theorem profWalk_clock (n₁ n₂ : String) (node : J) :
    (profWalk n₁ node).map stripCaptureP = (profWalk n₂ node).map stripCaptureP :=
  match node with
  | .obj o => by
    show (if pyTruthy (jGetD ((jGetD o "legacy" (.obj .nil)).asObj) "screen_name" .null)
            && !pyTruthy (jGetD ((jGetD o "legacy" (.obj .nil)).asObj) "full_text" .null)
          then some (buildProfile n₁ o ((jGetD o "legacy" (.obj .nil)).asObj))
          else profWalkObj n₁ o).map stripCaptureP
        = (if pyTruthy (jGetD ((jGetD o "legacy" (.obj .nil)).asObj) "screen_name" .null)
            && !pyTruthy (jGetD ((jGetD o "legacy" (.obj .nil)).asObj) "full_text" .null)
          then some (buildProfile n₂ o ((jGetD o "legacy" (.obj .nil)).asObj))
          else profWalkObj n₂ o).map stripCaptureP
    by_cases hc : (pyTruthy (jGetD ((jGetD o "legacy" (.obj .nil)).asObj) "screen_name" .null)
        && !pyTruthy (jGetD ((jGetD o "legacy" (.obj .nil)).asObj) "full_text" .null)) = true
    · rw [if_pos hc, if_pos hc]
      show some (stripCaptureP (buildProfile n₁ o _)) = some (stripCaptureP (buildProfile n₂ o _))
      rw [stripCaptureP_buildProfile n₁ n₂]
    · rw [if_neg hc, if_neg hc]
      exact profWalkObj_clock n₁ n₂ o
  | .arr a => profWalkArr_clock n₁ n₂ a
  | .null => rfl
  | .bool _ => rfl
  | .num _ => rfl
  | .str _ => rfl
theorem profWalkObj_clock (n₁ n₂ : String) (o : JObj) :
    (profWalkObj n₁ o).map stripCaptureP = (profWalkObj n₂ o).map stripCaptureP :=
  match o with
  | .nil => rfl
  | .cons _ v rest => by
    show ((match profWalk n₁ v with
           | some p => some p
           | none => profWalkObj n₁ rest) : Option Profile).map stripCaptureP
        = ((match profWalk n₂ v with
           | some p => some p
           | none => profWalkObj n₂ rest) : Option Profile).map stripCaptureP
    have hv := profWalk_clock n₁ n₂ v
    cases h1 : profWalk n₁ v with
    | some p₁ =>
      cases h2 : profWalk n₂ v with
      | some p₂ =>
        rw [h1, h2] at hv
        simpa using hv
      | none => rw [h1, h2] at hv; simp at hv
    | none =>
      cases h2 : profWalk n₂ v with
      | some p₂ => rw [h1, h2] at hv; simp at hv
      | none => exact profWalkObj_clock n₁ n₂ rest
theorem profWalkArr_clock (n₁ n₂ : String) (a : JArr) :
    (profWalkArr n₁ a).map stripCaptureP = (profWalkArr n₂ a).map stripCaptureP :=
  match a with
  | .nil => rfl
  | .cons v rest => by
    show ((match profWalk n₁ v with
           | some p => some p
           | none => profWalkArr n₁ rest) : Option Profile).map stripCaptureP
        = ((match profWalk n₂ v with
           | some p => some p
           | none => profWalkArr n₂ rest) : Option Profile).map stripCaptureP
    have hv := profWalk_clock n₁ n₂ v
    cases h1 : profWalk n₁ v with
    | some p₁ =>
      cases h2 : profWalk n₂ v with
      | some p₂ =>
        rw [h1, h2] at hv
        simpa using hv
      | none => rw [h1, h2] at hv; simp at hv
    | none =>
      cases h2 : profWalk n₂ v with
      | some p₂ => rw [h1, h2] at hv; simp at hv
      | none => exact profWalkArr_clock n₁ n₂ rest
end

/-- A small valid payload used to exhibit the capture-time dependence. -/
def c9Payload : J :=
  jo [("rest_id", .str "3"), ("legacy", jo [("full_text", .str "hello")])]

/-- C9 counterexample: the very same payload extracted at two different
wall-clock instants yields different records (the `scraped_at` field
records `datetime.now()`), so two runs of post extraction do not return
identical output. -/
theorem extractTweets_capture_time_dependent :
    extractTweets "2024-05-01T00:00:00" c9Payload
      ≠ extractTweets "2024-05-02T00:00:00" c9Payload := by decide

/-- C9 (amended).  Post and profile extraction are deterministic
functions of the decoded payload and the call's clock reading alone (no
shared mutable state): two runs on the same payload yield record lists
that are identical in every field except the capture timestamp
`scraped_at`. -/
theorem extract_pure_up_to_capture_time (now₁ now₂ : String) (data : J) :
    (extractTweets now₁ data).map stripCapture = (extractTweets now₂ data).map stripCapture
    ∧ (extractUserProfile now₁ data).map stripCaptureP
        = (extractUserProfile now₂ data).map stripCaptureP :=
  ⟨(walkJ_clockRel now₁ now₂ data ([], []) ([], []) ⟨rfl, rfl⟩).1,
   profWalk_clock now₁ now₂ data⟩

/-! ## C3: the merge phase keeps first occurrences, sorts, truncates -/

/-- Spec-side description of the merge: filter the concatenated buffers
to the first occurrence of each post identifier. -/
def specDedup : List Tweet → List Tweet
  | [] => []
  | t :: rest => t :: specDedup (rest.filter (fun u => u.id ≠ t.id))
termination_by l => l.length
decreasing_by
  simp only [List.length_cons]
  exact Nat.lt_succ_of_le (List.length_filter_le _ _)

/-- The merge loop with seen set `seen` is the first-occurrence filter
of the not-yet-seen elements, provided no identifier is empty. -/
theorem mergeLoop_eq_specDedup :
    ∀ (l : List Tweet), (∀ t ∈ l, t.id ≠ "") →
    ∀ seen : List String,
      mergeLoop seen l = specDedup (l.filter (fun t => !seen.contains t.id)) := by
  intro l
  induction l with
  | nil => intro h seen; simp [mergeLoop, specDedup]
  | cons t rest ih =>
    intro h seen
    have hid : t.id ≠ "" := h t (List.mem_cons_self t rest)
    have hrest : ∀ u ∈ rest, u.id ≠ "" := fun u hu => h u (List.mem_cons_of_mem t hu)
    by_cases hseen : seen.contains t.id = true
    · have hmem : t.id ∈ seen := List.elem_iff.mp hseen
      show (if (decide (t.id ≠ "") && !seen.contains t.id) = true
            then t :: mergeLoop (t.id :: seen) rest
            else mergeLoop seen rest)
          = specDedup ((t :: rest).filter (fun t => !seen.contains t.id))
      rw [if_neg (by simp [hmem]), List.filter_cons_of_neg (by simp [hmem])]
      exact ih hrest seen
    · have hnmem : t.id ∉ seen := fun hc => hseen (List.elem_iff.mpr hc)
      show (if (decide (t.id ≠ "") && !seen.contains t.id) = true
            then t :: mergeLoop (t.id :: seen) rest
            else mergeLoop seen rest)
          = specDedup ((t :: rest).filter (fun t => !seen.contains t.id))
      rw [if_pos (by simp [hnmem, hid]), List.filter_cons_of_pos (by simp [hnmem])]
      rw [specDedup]
      congr 1
      rw [List.filter_filter]
      rw [ih hrest (t.id :: seen)]
      congr 1
      apply List.filter_congr
      intro u hu
      by_cases hut : u.id = t.id
      · simp [List.contains_cons, hut]
      · simp [List.contains_cons, hut]

/-- A record with the given identifier, creation timestamp and capture
timestamp (all other fields blank). -/
def mkPost (idv created scraped : String) : Tweet :=
  { blankTweet with id := idv, created_at := .str created, scraped_at := scraped }

def postA : Tweet := mkPost "11" "2024-01-01T00:00:00" ""
def postB : Tweet := mkPost "12" "2024-06-01T00:00:00" ""
def post1001a : Tweet := mkPost "1001" "2024-03-01T00:00:00" "2024-05-01T00:00:01"
def post1001b : Tweet := mkPost "1001" "2024-03-01T00:00:00" "2024-05-01T00:09:09"

/-- C3.  For every scrape run (nonempty pool; buffers of extracted posts,
whose identifiers are nonempty by C1), the returned post list equals the
concatenation of all session buffers (in task-completion order) filtered
to the first occurrence of each post identifier, sorted in descending
lexicographic order of the creation-timestamp string, and truncated to
the first `limit` elements; in particular the post created
`2024-06-01T00:00:00` is ordered before the one created
`2024-01-01T00:00:00`, and two buffers both containing identifier
`"1001"` (with different capture timestamps) yield exactly one record
with that identifier. -/
theorem parallelScrape_merge_spec :
    (∀ (pq : PoolSt) (batches : List (List Tweet)) (profiles : List Profile) (limit : Nat),
        pq.q ≠ [] → (∀ t ∈ batches.flatten, t.id ≠ "") →
        parallelScrape pq batches profiles limit
          = .ok ⟨(sortMerged (specDedup batches.flatten)).take limit, bestProfile profiles⟩)
    ∧ (parallelScrape ⟨["p1"], [], 1⟩ [[postA], [postB]] [] 10).map
        (fun r => r.tweets.map Tweet.created_at)
        = .ok [.str "2024-06-01T00:00:00", .str "2024-01-01T00:00:00"]
    ∧ (parallelScrape ⟨["p1"], [], 1⟩ [[post1001a], [post1001b]] [] 10).map
        (fun r => r.tweets.map Tweet.id)
        = .ok ["1001"] := by
  refine ⟨?_, by decide, by decide⟩
  intro pq batches profiles limit hq hid
  have hrem : ¬remaining pq = 0 := by
    intro hc
    exact hq (List.length_eq_zero.mp hc)
  unfold parallelScrape
  rw [if_neg hrem]
  have hm : mergeLoop [] batches.flatten = specDedup batches.flatten := by
    rw [mergeLoop_eq_specDedup batches.flatten hid []]
    congr 1
    have : (fun t : Tweet => !(([] : List String).contains t.id)) = fun _ => true := by
      funext u; rfl
    rw [this, List.filter_true]
  rw [hm]

/-- Witness for C3 at a concrete run: one pool entry, two buffers. -/
theorem parallelScrape_merge_spec_witness :
    parallelScrape ⟨["p9"], [], 1⟩ [[postB], [postA]] [] 5
      = .ok ⟨(sortMerged (specDedup [[postB], [postA]].flatten)).take 5, bestProfile []⟩ :=
  parallelScrape_merge_spec.1 ⟨["p9"], [], 1⟩ [[postB], [postA]] [] 5
    (by decide) (by decide)

/-! ## C5: the empty-pool branch returns, it does not raise

The source logs `"No proxies left"` and returns
`{"tweets": [], "profile": None}`; no `ExhaustedResourcesError` (or any
exception) exists anywhere in the module. -/

/-- C5 counterexample: with the proxy pool empty at the start of the
scrape call, `_parallel_scrape` returns a normal empty result; the
outcome is not a raised exception of any kind, refuting the claim that
the call fails with a hard `ExhaustedResourcesError`. -/
theorem parallelScrape_empty_pool_no_raise :
    parallelScrape ⟨[], [], 0⟩ [] [] 100 = .ok ⟨[], none⟩
    ∧ raisedOutcome (parallelScrape ⟨[], [], 0⟩ [] [] 100) = false := by
  exact ⟨rfl, rfl⟩

/-- C5 (amended).  If the proxy pool is empty at the start of a scrape
call, the call logs an error and returns a normal empty result (no
posts, no profile) to the caller; no exception is raised or
propagated. -/
theorem parallelScrape_empty_pool_returns_empty (pq : PoolSt)
    (batches : List (List Tweet)) (profiles : List Profile) (limit : Nat)
    (h : pq.q = []) :
    parallelScrape pq batches profiles limit = .ok ⟨[], none⟩ := by
  unfold parallelScrape
  rw [if_pos (by simp [remaining, h])]

/-- Witness for the amended C5 at a concrete exhausted pool. -/
theorem parallelScrape_empty_pool_returns_empty_witness :
    parallelScrape ⟨[], [("p1", ⟨99/10, false, 0, 0⟩)], 1⟩ [[postA]] [] 7 = .ok ⟨[], none⟩ :=
  parallelScrape_empty_pool_returns_empty ⟨[], [("p1", ⟨99/10, false, 0, 0⟩)], 1⟩
    [[postA]] [] 7 rfl

/-! ## C6: checked-out endpoints are never returned again -/

theorem runPool_consume (ops : List PoolOp) :
    ∀ st : PoolSt,
      ((runPool ops st).2.filterMap id) ++ (runPool ops st).1.q = st.q := by
  induction ops with
  | nil => intro st; simp [runPool]
  | cons op rest ih =>
    intro st
    cases op with
    | checkout =>
      have hstep : runPool (.checkout :: rest) st
          = ((runPool rest (checkout st).2).1,
             (checkout st).1 :: (runPool rest (checkout st).2).2) := rfl
      rw [hstep]
      cases hq : st.q with
      | nil =>
        have hc1 : (checkout st).1 = none := by unfold checkout; rw [hq]
        have hc2 : (checkout st).2 = st := by unfold checkout; rw [hq]
        rw [hc1, hc2]
        show List.filterMap id (none :: (runPool rest st).2) ++ (runPool rest st).1.q = []
        rw [List.filterMap_cons_none rfl, ih st]
        exact hq
      | cons u tq =>
        have hc1 : (checkout st).1 = some u := by unfold checkout; rw [hq]
        have hc2 : (checkout st).2 = { st with q := tq } := by unfold checkout; rw [hq]
        rw [hc1, hc2]
        show List.filterMap id (some u :: (runPool rest { st with q := tq }).2)
            ++ (runPool rest { st with q := tq }).1.q = u :: tq
        rw [List.filterMap_cons_some (f := id) rfl, List.cons_append]
        exact congrArg (u :: ·) (ih { st with q := tq })
    | record u s n e =>
      have hstep : runPool (.record u s n e :: rest) st = runPool rest (record st u s n e) := rfl
      rw [hstep]
      exact ih (record st u s n e)

/-- C6.  Within one proxy pool instance holding distinct endpoints,
every endpoint is checked out at most once: across any sequence of
operations, the successful `checkout()` results are pairwise distinct
(they consume the queue front, and `record()` never touches the queue,
regardless of the recorded success flag), and `checkout()` on an empty
queue signals empty immediately, without blocking or retrying.  (The
proxy-finder collaborator deduplicates endpoints through a seen-set, so
a loaded pool instance always satisfies the distinctness hypothesis.) -/
theorem checkout_one_shot :
    (∀ (ops : List PoolOp) (st : PoolSt),
        ((runPool ops st).2.filterMap id) ++ (runPool ops st).1.q = st.q)
    ∧ (∀ (ops : List PoolOp) (st : PoolSt), st.q.Nodup →
        ((runPool ops st).2.filterMap id).Nodup)
    ∧ (∀ (st : PoolSt) (u : String) (s : Bool) (n : Nat) (e : Rat),
        (record st u s n e).q = st.q)
    ∧ (∀ st : PoolSt, st.q = [] → checkout st = (none, st)) := by
  refine ⟨runPool_consume, ?_, fun st u s n e => rfl, ?_⟩
  · intro ops st h
    rw [← runPool_consume ops st] at h
    exact h.of_append_left
  · intro st h
    unfold checkout; rw [h]

/-- Witness for C6: a loaded two-endpoint pool, a failure record in
between, three checkouts. -/
theorem checkout_one_shot_witness :
    ((runPool [.checkout, .record "p1" false 0 1, .checkout, .checkout]
        ⟨["p1", "p2"], [], 2⟩).2.filterMap id).Nodup :=
  checkout_one_shot.2.1 [.checkout, .record "p1" false 0 1, .checkout, .checkout]
    ⟨["p1", "p2"], [], 2⟩ (by decide)

/-! ## C7: the rate-limit signal short-circuits the session -/

theorem scrollLoop_reads_clear (env : SessionEnv) (target : Nat) :
    ∀ (fuel done k : Nat), done < k → k ≤ scrollLoop env target done fuel →
      env.sigScroll k = false := by
  intro fuel
  induction fuel with
  | zero =>
    intro done k h1 h2
    rw [scrollLoop] at h2
    omega
  | succ n ih =>
    intro done k h1 h2
    rw [scrollLoop] at h2
    by_cases hs : env.sigScroll (done + 1) = true
    · rw [if_pos hs] at h2; omega
    · by_cases ht : target ≤ (env.bucketAt (done + 1)).length
      · rw [if_neg hs, if_pos ht] at h2
        have hk : k = done + 1 := by omega
        rw [hk]
        exact Bool.eq_false_iff.mpr hs
      · rw [if_neg hs, if_neg ht] at h2
        by_cases hk : k = done + 1
        · rw [hk]
          exact Bool.eq_false_iff.mpr hs
        · exact ih (done + 1) k (by omega) h2

/-- C7.  If the rate-limit signal is already set when the session's
`scrape` is called, or becomes set during the stagger sleep, the session
returns its currently buffered records (possibly empty) and profile
without navigating; and every scroll step that did begin saw a clear
signal at its top — once the signal is set, no further scroll step
begins. -/
theorem sessionScrape_rate_limited (env : SessionEnv) (cap target : Nat) :
    (env.sig0 = true →
        sessionScrape env cap target = ⟨env.bucketAt 0, env.profile, false, 0⟩)
    ∧ (env.sig0 = false → env.sig1 = true →
        sessionScrape env cap target = ⟨env.bucketAt 0, env.profile, false, 0⟩)
    ∧ (∀ k, 1 ≤ k → k ≤ (sessionScrape env cap target).steps →
        env.sigScroll k = false) := by
  refine ⟨?_, ?_, ?_⟩
  · intro h0
    unfold sessionScrape
    rw [if_pos h0]
  · intro h0 h1
    unfold sessionScrape
    rw [if_neg (by simp [h0]), if_pos h1]
  · intro k hk1 hk2
    unfold sessionScrape at hk2
    by_cases h0 : env.sig0 = true
    · rw [if_pos h0] at hk2; simp at hk2; omega
    · rw [if_neg h0] at hk2
      by_cases h1 : env.sig1 = true
      · rw [if_pos h1] at hk2; simp at hk2; omega
      · rw [if_neg h1] at hk2
        by_cases h2 : env.navRaises = true
        · rw [if_pos h2] at hk2; simp at hk2; omega
        · rw [if_neg h2] at hk2
          exact scrollLoop_reads_clear env target cap 0 k (by omega) hk2

/-- A concrete environment whose rate-limit flag is set at entry with a
nonempty buffer. -/
def envSig0 : SessionEnv :=
  ⟨true, false, fun _ => false, false, fun _ => [postA], some (buildProfile "" .nil .nil)⟩

/-- Witness for C7: the already-signalled session returns its buffer and
profile without navigating and with zero scroll steps. -/
theorem sessionScrape_rate_limited_witness :
    sessionScrape envSig0 5 50 = ⟨envSig0.bucketAt 0, envSig0.profile, false, 0⟩ :=
  (sessionScrape_rate_limited envSig0 5 50).1 (by decide)

/-! ## C8: the three-proxy scenario

Three proxies are loaded; all three are checked out.  The session whose
`open()` fails records `(success=False, tweets=0, elapsed>0)` — the
elapsed time of the failed open attempt is positive, so `summary()`
counts that session in its denominator and reports `2/3 sessions ok`,
not the `2/2` the specification's scenario promises. -/

/-- A pool loaded with three endpoints (speeds defaulted). -/
def pool3 : PoolSt := loadPool [⟨some "p1", none⟩, ⟨some "p2", none⟩, ⟨some "p3", none⟩]

/-- The pool interactions of the scenario: three checkouts, then each
session's outcome record (`_run_session` lines 739-751), with the given
elapsed times. -/
def opsC8 (e1 e2 e3 : Rat) : List PoolOp :=
  [.checkout, .checkout, .checkout,
   .record "p1" false 0 e1, .record "p2" true 5 e2, .record "p3" true 7 e3]

/-- The two successful sessions' buffers: 5 and 7 distinct posts with no
overlapping identifiers. -/
def b5 : List Tweet :=
  [mkPost "1" "" "", mkPost "2" "" "", mkPost "3" "" "", mkPost "4" "" "", mkPost "5" "" ""]

def b7 : List Tweet :=
  [mkPost "6" "" "", mkPost "7" "" "", mkPost "8" "" "", mkPost "9" "" "",
   mkPost "10" "" "", mkPost "11" "" "", mkPost "12" "" ""]

/-- C8 counterexample: in the scenario (elapsed times 1s, 2s, 3s) the
pool summary reports `2/3 sessions ok` — the failed-open session is
counted in the denominator, because its recorded elapsed time is
positive — and not the claimed `2/2`. -/
theorem summary_counts_failed_open_session :
    summary ((runPool (opsC8 1 2 3) pool3).1) = "3 proxies | 2/3 sessions ok | 12 raw tweets"
    ∧ summary ((runPool (opsC8 1 2 3) pool3).1)
        ≠ "3 proxies | 2/2 sessions ok | 12 raw tweets" := by
  exact ⟨by decide, by decide⟩

/-- C8 (amended).  In the scenario — pool loaded with 3 proxies, one
session failed at open, the other two returning 5 and 7 distinct posts
with no overlapping identifiers, limit 200 — the merged result has 12
posts (at most the configured limit), and the pool summary reports 2 out
of 3 sessions succeeded: the failed-open session is counted among the
tested sessions, since its elapsed time was recorded as positive. -/
theorem scenario_three_proxies (e1 e2 e3 : Rat)
    (h1 : 0 < e1) (h2 : 0 < e2) (h3 : 0 < e3) :
    (parallelScrape pool3 [[], b5, b7] [] 200).map (fun r => r.tweets.length) = .ok 12
    ∧ summary ((runPool (opsC8 e1 e2 e3) pool3).1)
        = "3 proxies | 2/3 sessions ok | 12 raw tweets" := by
  refine ⟨by decide, ?_⟩
  have hst : (runPool (opsC8 e1 e2 e3) pool3).1.stats
      = [("p1", ⟨99/10, false, 0, e1⟩), ("p2", ⟨99/10, true, 5, e2⟩),
         ("p3", ⟨99/10, true, 7, e3⟩)] := by rfl
  have htot : (runPool (opsC8 e1 e2 e3) pool3).1.totalLoaded = 3 := by rfl
  unfold summary
  rw [hst, htot]
  simp only [List.map_cons, List.map_nil, List.filter_cons, List.filter_nil,
    decide_eq_true_eq, h1, h2, h3, if_pos, Bool.false_eq_true, if_false, if_true,
    List.length_cons, List.length_nil, List.sum_cons, List.sum_nil]
  decide

/-- Witness for the amended C8 at concrete positive elapsed times. -/
theorem scenario_three_proxies_witness :
    (parallelScrape pool3 [[], b5, b7] [] 200).map (fun r => r.tweets.length) = .ok 12
    ∧ summary ((runPool (opsC8 (1/2) (3/2) (5/2)) pool3).1)
        = "3 proxies | 2/3 sessions ok | 12 raw tweets" :=
  scenario_three_proxies (1/2) (3/2) (5/2) (by norm_num) (by norm_num) (by norm_num)

/-! ## C10: loading skips entries without a proxy URL -/

/-- The URLs of the persisted entries whose proxy field is present and
nonempty, in file order. -/
def validUrls (items : List ProxyItem) : List String :=
  items.filterMap (fun it => if it.proxy.getD "" = "" then none else some (it.proxy.getD ""))

theorem statsInsert_keys (k : String) (v : PStats) :
    ∀ (m : List (String × PStats)) (x : String),
      x ∈ (statsInsert k v m).map Prod.fst → x = k ∨ x ∈ m.map Prod.fst := by
  intro m
  induction m with
  | nil =>
    intro x hx
    simp [statsInsert] at hx
    exact Or.inl hx
  | cons kv rest ih =>
    intro x hx
    unfold statsInsert at hx
    by_cases hk : kv.1 = k
    · rw [if_pos hk] at hx
      rcases List.mem_map.mp hx with ⟨p, hp, hpx⟩
      rcases List.mem_cons.mp hp with rfl | hp'
      · exact Or.inl hpx.symm
      · exact Or.inr (List.mem_map.mpr ⟨p, List.mem_cons_of_mem _ hp', hpx⟩)
    · rw [if_neg hk] at hx
      rcases List.mem_map.mp hx with ⟨p, hp, hpx⟩
      rcases List.mem_cons.mp hp with rfl | hp'
      · exact Or.inr (List.mem_map.mpr ⟨kv, List.mem_cons_self _ _, hpx⟩)
      · rcases ih x (List.mem_map.mpr ⟨p, hp', hpx⟩) with h | h
        · exact Or.inl h
        · exact Or.inr (List.mem_map.mpr (by
            rcases List.mem_map.mp h with ⟨q, hq, hqx⟩
            exact ⟨q, List.mem_cons_of_mem _ hq, hqx⟩))

theorem loadAux :
    ∀ (items : List ProxyItem) (st : PoolSt),
      (items.foldl loadStep st).q = st.q ++ validUrls items
      ∧ (∀ x ∈ (items.foldl loadStep st).stats.map Prod.fst,
          x ∈ st.stats.map Prod.fst ∨ x ∈ validUrls items) := by
  intro items
  induction items with
  | nil => intro st; simp [validUrls]
  | cons it rest ih =>
    intro st
    have hfold : (it :: rest).foldl loadStep st = rest.foldl loadStep (loadStep st it) := rfl
    by_cases hu : it.proxy.getD "" = ""
    · have hstep : loadStep st it = st := by
        unfold loadStep; rw [if_neg (by simpa using hu)]
      have hv : validUrls (it :: rest) = validUrls rest := by
        unfold validUrls
        rw [List.filterMap_cons_none (by simp [hu])]
      rw [hfold, hstep, hv]
      exact ih st
    · have hstep : loadStep st it
          = { st with q := st.q ++ [it.proxy.getD ""],
                      stats := statsInsert (it.proxy.getD "")
                        ⟨it.speed.getD (99/10), false, 0, 0⟩ st.stats } := by
        unfold loadStep; rw [if_pos (by simpa using hu)]
      have hv : validUrls (it :: rest) = it.proxy.getD "" :: validUrls rest := by
        unfold validUrls
        rw [List.filterMap_cons_some (b := it.proxy.getD "") (by rw [if_neg hu])]
      rw [hfold, hstep, hv]
      rcases ih { st with q := st.q ++ [it.proxy.getD ""],
                          stats := statsInsert (it.proxy.getD "")
                            ⟨it.speed.getD (99/10), false, 0, 0⟩ st.stats } with ⟨ihq, ihs⟩
      constructor
      · rw [ihq]
        simp
      · intro x hx
        rcases ihs x hx with h | h
        · rcases statsInsert_keys _ _ st.stats x h with h' | h'
          · exact Or.inr (h' ▸ List.mem_cons_self _ _)
          · exact Or.inl h'
        · exact Or.inr (List.mem_cons_of_mem _ h)

theorem validUrls_ne_empty (items : List ProxyItem) :
    ∀ u ∈ validUrls items, u ≠ "" := by
  intro u hu
  rcases List.mem_filterMap.mp hu with ⟨it, _, hit⟩
  by_cases h : it.proxy.getD "" = ""
  · rw [if_pos h] at hit; exact absurd hit (by simp)
  · rw [if_neg h] at hit
    injection hit with h2
    rw [← h2]
    exact h

/-- C10.  When the proxy pool loads its persisted list, every entry
whose proxy-URL field is missing or an empty string is silently skipped:
it is neither enqueued nor given a stats record, so the queue holds
exactly the nonempty URLs in file order, `total()` and `remaining()`
count only those entries, every stats key is a nonempty loaded URL, and
`checkout()` can never return an empty-string endpoint. -/
theorem loadPool_skips_blank_entries :
    (∀ items : List ProxyItem, (loadPool items).q = validUrls items)
    ∧ (∀ items : List ProxyItem, (loadPool items).totalLoaded = (validUrls items).length)
    ∧ (∀ items : List ProxyItem, remaining (loadPool items) = (validUrls items).length)
    ∧ (∀ (items : List ProxyItem) (u : String), u ∈ (loadPool items).q → u ≠ "")
    ∧ (∀ (items : List ProxyItem) (x : String),
        x ∈ (loadPool items).stats.map Prod.fst → x ≠ "" ∧ x ∈ validUrls items)
    ∧ (∀ (items : List ProxyItem) (ops : List PoolOp),
        "" ∉ (runPool ops (loadPool items)).2.filterMap id) := by
  have hq : ∀ items : List ProxyItem, (loadPool items).q = validUrls items := by
    intro items
    show (items.foldl loadStep ⟨[], [], 0⟩).q = validUrls items
    rw [(loadAux items ⟨[], [], 0⟩).1]
    rfl
  have hstats : ∀ (items : List ProxyItem) (x : String),
      x ∈ (loadPool items).stats.map Prod.fst → x ≠ "" ∧ x ∈ validUrls items := by
    intro items x hx
    have hx' : x ∈ (items.foldl loadStep ⟨[], [], 0⟩).stats.map Prod.fst := hx
    rcases (loadAux items ⟨[], [], 0⟩).2 x hx' with h | h
    · exact absurd h (by simp)
    · exact ⟨validUrls_ne_empty items x h, h⟩
  refine ⟨hq, ?_, ?_, ?_, hstats, ?_⟩
  · intro items
    show (items.foldl loadStep ⟨[], [], 0⟩).q.length = (validUrls items).length
    rw [(loadAux items ⟨[], [], 0⟩).1]
    rfl
  · intro items
    show (loadPool items).q.length = (validUrls items).length
    rw [hq items]
  · intro items u hu
    rw [hq items] at hu
    exact validUrls_ne_empty items u hu
  · intro items ops hmem
    have hc := runPool_consume ops (loadPool items)
    have : ("" : String) ∈ (loadPool items).q := by
      rw [← hc]
      exact List.mem_append_left _ hmem
    rw [hq items] at this
    exact validUrls_ne_empty items "" this rfl

/-- Witness for C10 at a concrete persisted list with a blank and a
missing proxy field. -/
theorem loadPool_skips_blank_entries_witness :
    ("p1" : String) ≠ "" ∧ "p1" ∈ validUrls [⟨some "", some 1⟩, ⟨some "p1", none⟩, ⟨none, some 2⟩] :=
  loadPool_skips_blank_entries.2.2.2.2.1
    [⟨some "", some 1⟩, ⟨some "p1", none⟩, ⟨none, some 2⟩] "p1" (by decide)

end XScraper
